import Mathlib

/-!
# secret-tool for OS X: a shallow embedding of `main.go`

The program is a thin command-line front end to `/usr/bin/security`.  Its own code is
argument validation, construction of the subprocess argument vector, fixed-offset slicing
of the captured output, reading the password from standard input and the propagation of
errors and exit codes.  Everything below the line "the program" is a transcription of
`main.go`, function by function; everything above it is the small part of the Go runtime
and of the libraries (`bytes`, `bufio`, `os/exec`, `syscall`, `cli`) that those functions
call, modelled from the documented behaviour of those libraries.
-/

namespace SecretTool

/-! ## Go runtime and library model -/

/-- Go byte slices and Go strings are finite sequences of bytes. -/
abbrev Bytes := List UInt8

/-- The bytes of an ASCII string literal of the source. -/
def ascii (s : String) : Bytes :=
  s.data.map (fun c => UInt8.ofNat c.toNat)

/-- The newline byte. -/
def nl : UInt8 := 10

/-- The double-quote byte. -/
def dq : UInt8 := 34

/-- A Go computation either returns a value or stops in a run-time panic. -/
inductive Outcome (α : Type) where
  | ret (a : α)
  | panic
  deriving DecidableEq, Repr

/-- The slice expression `b[lo:hi]` with the bounds check of Go `0 <= lo <= hi <= len(b)`;
a failed check is the run-time panic "slice bounds out of range".  (For a byte slice Go
compares `hi` with the capacity; in both uses in `main.go` the high bound is at most the
length, so the check on the capacity can never be the one that fails.) -/
def slice (b : Bytes) (lo hi : Int) : Outcome Bytes :=
  if 0 ≤ lo ∧ lo ≤ hi ∧ hi ≤ (b.length : Int) then
    .ret ((b.drop lo.toNat).take (hi.toNat - lo.toNat))
  else
    .panic

/-- Go `error` values that occur in the program.  `errorString s` is `errors.New(s)`;
`exitError sys Stderr` is an `*exec.ExitError` whose `Sys()` is the wait status `sys`
(`none` when it is not a `syscall.WaitStatus`) and whose field `Stderr` holds `Stderr`;
`other` is any other error value (for example `*exec.Error` or `*os.PathError`). -/
inductive GoError where
  | errorString (s : Bytes)
  | exitError (sys : Option Nat) (Stderr : Bytes)
  | other (msg : Bytes)
  deriving DecidableEq, Repr

/-- The error `io.EOF`, which is `errors.New("EOF")`. -/
def ioEOF : GoError := .errorString (ascii "EOF")

/-- The method `syscall.WaitStatus.ExitStatus` on Darwin: a status whose low seven bits
are not zero does not describe a normal exit and gives `-1`; otherwise the exit status
is the status shifted right by eight bits. -/
def ExitStatus (w : Nat) : Int :=
  if w % 128 ≠ 0 then -1 else ((w / 256 : Nat) : Int)

/-- The function `bytes.Split(s, sep)` for a separator `sep` of one byte `d`: the pieces
of `s` between the occurrences of `d`.  The result always has at least one piece. -/
def bytesSplit (d : UInt8) : Bytes → List Bytes
  | [] => [[]]
  | c :: cs =>
    if c = d then [] :: bytesSplit d cs
    else
      match bytesSplit d cs with
      | [] => [[c]]
      | l :: ls => (c :: l) :: ls

/-- The method `(*bufio.Reader).ReadString(delim)` on a stream that holds `content` and
then ends: the bytes up to and including the first `delim` and no error, or, when the
stream ends before a `delim` is found, the bytes read so far together with `io.EOF`. -/
def ReadString (delim : UInt8) : Bytes → Bytes × Option GoError
  | [] => ([], some ioEOF)
  | c :: cs =>
    if c = delim then ([c], none)
    else ((c :: (ReadString delim cs).1), (ReadString delim cs).2)

/-- An `exec.Cmd` as `main.go` builds it: the program path, the arguments after it, and
whether a `bytes.Buffer` has been attached as `cmd.Stderr`. -/
structure Cmd where
  Path : Bytes
  Args : List Bytes
  Stderr : Bool
  deriving DecidableEq, Repr

/-- How a spawned command ends: it is started and waited for, with wait status `ws`, or
starting or waiting for it fails with an error that is not an `*exec.ExitError`. -/
inductive Ending where
  | exited (ws : Nat)
  | failure (msg : Bytes)
  deriving DecidableEq, Repr

/-- What one spawned command does: the bytes it writes to its standard error and how it
ends. -/
structure Execution where
  stderr : Bytes
  ending : Ending
  deriving DecidableEq, Repr

/-- The method `(*exec.Cmd).Run` applied to a command whose execution is `x`: the
returned `error` and the contents of the buffer attached as `cmd.Stderr` afterwards
(empty when none is attached: the standard error of the child then goes to the null device).
`Run` returns `nil` when the command exits with status zero and an `*exec.ExitError`
when it exits otherwise.  The field `Stderr` of that error is only ever filled in by
`(*exec.Cmd).Output`, so after `Run` it is empty. -/
def Cmd.Run (c : Cmd) (x : Execution) : Option GoError × Bytes :=
  let buf := if c.Stderr then x.stderr else []
  match x.ending with
  | .exited ws =>
    if ExitStatus ws = 0 then (none, buf) else (some (.exitError (some ws) []), buf)
  | .failure msg => (some (.other msg), buf)

/-- The machine the program runs on: `os` tells what a command with a given path and
arguments does, `spawned` lists the commands run so far, in order. -/
structure Sys where
  os : Bytes → List Bytes → Execution
  spawned : List Cmd

/-- Run `c` on the machine: record it and return what `Cmd.Run` returns. -/
def Sys.run (y : Sys) (c : Cmd) : Sys × Option GoError × Bytes :=
  ({ y with spawned := y.spawned ++ [c] }, c.Run (y.os c.Path c.Args))

/-- Standard input of the program: a terminal, on which `terminal.ReadPassword` returns
the pair `read`, or a pipe or file that holds `content`. -/
inductive Stdin where
  | terminal (read : Bytes × Option GoError)
  | pipe (content : Bytes)
  deriving DecidableEq, Repr

/-- The parsed command line that the `cli` package hands to `Before` and `Action`:
the positional arguments `c.Args()` and the flags `label`, `all` and `unlock`. -/
structure Context where
  Args : List Bytes
  label : Option Bytes
  all : Bool
  unlock : Bool
  deriving DecidableEq, Repr

/-- The method `cli.Args.Get(n)`: the `n`-th argument, or the empty string. -/
def Context.Get (c : Context) (n : Nat) : Bytes :=
  if n < c.Args.length then c.Args.getD n [] else []

/-- The method `c.IsSet("label")`. -/
def Context.IsSetLabel (c : Context) : Bool := c.label.isSome

/-- The method `c.String("label")`: the value of the flag, empty when it is not set. -/
def Context.StringLabel (c : Context) : Bytes := c.label.getD []

/-! ## The program -/

/-- The struct `security` of `main.go`. -/
structure security where
  keychain : Bytes
  exitCode : Int
  deriving DecidableEq, Repr

/-- The function `exitCode` of `main.go`. -/
def exitCode (err : Option GoError) : Int :=
  match err with
  | some (.exitError (some status) _) => ExitStatus status
  | some _ => 1
  | none => 0

/-- The function `firstLineError` of `main.go`. -/
def firstLineError (b : Bytes) : Option GoError :=
  match bytesSplit nl b with
  | line :: _ => some (.errorString line)
  | [] => none

/-- The function `execError` of `main.go`. -/
def execError (err : Option GoError) : Option GoError :=
  match err with
  | some (.exitError _ Stderr) => firstLineError Stderr
  | _ => err

/-- The command that `findGenericPassword` builds. -/
def findCmd (account service : Bytes) : Cmd :=
  { Path := ascii "/usr/bin/security"
    Args := [ascii "find-generic-password", ascii "-a", account, ascii "-s", service,
             ascii "-g"]
    Stderr := true }

/-- The method `findGenericPassword` of `main.go`.  The result is the machine and the
struct afterwards and the returned pair, or a panic of the slice expression. -/
def findGenericPassword (y : Sys) (s : security) (account service : Bytes)
    (_all _unlock : Bool) : Sys × security × Outcome (Bytes × Option GoError) :=
  let r := y.run (findCmd account service)
  let err := r.2.1
  let buf := r.2.2
  let s1 := { s with exitCode := exitCode err }
  match err with
  | some _ => (r.1, s1, .ret ([], firstLineError buf))
  | none =>
    let out := buf
    match slice out 11 ((out.length : Int) - 2) with
    | .ret pass => (r.1, s1, .ret (pass, none))
    | .panic => (r.1, s1, .panic)

/-- The command that `addGenericPassword` builds. -/
def addCmd (account service label password : Bytes) : Cmd :=
  { Path := ascii "/usr/bin/security"
    Args := [ascii "add-generic-password", ascii "-a", account, ascii "-s", service,
             ascii "-l", label, ascii "-w", password, ascii "-U"]
    Stderr := false }

/-- The method `addGenericPassword` of `main.go`. -/
def addGenericPassword (y : Sys) (s : security) (account service label password : Bytes) :
    Sys × security × Option GoError :=
  let r := y.run (addCmd account service label password)
  let err := r.2.1
  (r.1, { s with exitCode := exitCode err }, execError err)

/-- The command that `deleteGenericPassword` builds. -/
def deleteCmd (account service : Bytes) : Cmd :=
  { Path := ascii "/usr/bin/security"
    Args := [ascii "delete-generic-password", ascii "-a", account, ascii "-s", service]
    Stderr := false }

/-- The method `deleteGenericPassword` of `main.go`. -/
def deleteGenericPassword (y : Sys) (s : security) (account service : Bytes) :
    Sys × security × Option GoError :=
  let r := y.run (deleteCmd account service)
  let err := r.2.1
  (r.1, { s with exitCode := exitCode err }, execError err)

/-- The function `passwordFromStdin` of `main.go`: the bytes it prints to standard
output and the returned pair, or a panic of the slice expression. -/
def passwordFromStdin (stdin : Stdin) (prompt : Bytes) :
    Bytes × Outcome (Bytes × Option GoError) :=
  match stdin with
  | .terminal read =>
    match read.2 with
    | some err => (prompt ++ [nl], .ret ([], some err))
    | none => (prompt ++ [nl], .ret (read.1, none))
  | .pipe content =>
    let r := ReadString nl content
    match r.2 with
    | some err => ([], .ret ([], some err))
    | none =>
      match slice r.1 0 ((r.1.length : Int) - 1) with
      | .ret p => ([], .ret (p, none))
      | .panic => ([], .panic)

/-- How the program stops before the end of an action: `os.Exit(code)` or a panic. -/
inductive Halt where
  | exit (code : Int)
  | panic
  deriving DecidableEq, Repr

/-- The running program: the machine, the struct `s` that `main` allocates, standard
input, the bytes written to standard output by `main.go`, the errors handed to
`log.Println("Error:", err)`, and whether the program has stopped. -/
structure Proc where
  sys : Sys
  s : security
  stdin : Stdin
  stdout : Bytes
  log : List GoError
  halt : Option Halt

/-- The text of the error that every `Before` returns for too few arguments. -/
def missingArguments : GoError := .errorString (ascii "Missing arguments")

/-- The text of the error that the `Before` of `store` returns without `--label`. -/
def missingFlagLabel : GoError := .errorString (ascii "Missing flag label")

/-- The `Before` function of the command `lookup`. -/
def lookupBefore (c : Context) : Option GoError :=
  if c.Args.length < 2 then some missingArguments else none

/-- The `Action` function of the command `lookup`. -/
def lookupAction (c : Context) (p : Proc) : Proc :=
  let service := c.Get 0
  let account := c.Get 1
  let r := findGenericPassword p.sys p.s account service false true
  match r.2.2 with
  | .panic => { p with sys := r.1, s := r.2.1, halt := some .panic }
  | .ret (_, some err) =>
    { p with sys := r.1, s := r.2.1, log := p.log ++ [err],
             halt := some (.exit r.2.1.exitCode) }
  | .ret (pass, none) =>
    { p with sys := r.1, s := r.2.1, stdout := p.stdout ++ pass ++ [nl] }

/-- The `Before` function of the command `store`. -/
def storeBefore (c : Context) : Option GoError :=
  if c.Args.length < 2 then some missingArguments
  else if !c.IsSetLabel then some missingFlagLabel
  else none

/-- The `Action` function of the command `store`. -/
def storeAction (c : Context) (p : Proc) : Proc :=
  let service := c.Get 0
  let account := c.Get 1
  let label := c.StringLabel
  let r := passwordFromStdin p.stdin (ascii "Password: ")
  match r.2 with
  | .panic => { p with stdout := p.stdout ++ r.1, halt := some .panic }
  | .ret (password, err) =>
    let log1 := match err with
      | some e => p.log ++ [e]
      | none => p.log
    let a := addGenericPassword p.sys p.s account service label password
    match a.2.2 with
    | some e =>
      { p with sys := a.1, s := a.2.1, stdout := p.stdout ++ r.1, log := log1 ++ [e],
               halt := some (.exit a.2.1.exitCode) }
    | none => { p with sys := a.1, s := a.2.1, stdout := p.stdout ++ r.1, log := log1 }

/-- The `Before` function of the command `search`. -/
def searchBefore (c : Context) : Option GoError :=
  if c.Args.length < 2 then some missingArguments else none

/-- The `Action` function of the command `search`. -/
def searchAction (c : Context) (p : Proc) : Proc :=
  let service := c.Get 0
  let account := c.Get 1
  let all := c.all
  let unlock := c.unlock
  let r := findGenericPassword p.sys p.s account service all unlock
  match r.2.2 with
  | .panic => { p with sys := r.1, s := r.2.1, halt := some .panic }
  | .ret (_, some err) =>
    { p with sys := r.1, s := r.2.1, log := p.log ++ [err],
             halt := some (.exit r.2.1.exitCode) }
  | .ret (pass, none) =>
    { p with sys := r.1, s := r.2.1, stdout := p.stdout ++ pass ++ [nl] }

/-- The `Before` function of the command `clear`. -/
def clearBefore (c : Context) : Option GoError :=
  if c.Args.length < 2 then some missingArguments else none

/-- The `Action` function of the command `clear`. -/
def clearAction (c : Context) (p : Proc) : Proc :=
  let service := c.Get 0
  let account := c.Get 1
  let r := deleteGenericPassword p.sys p.s account service
  match r.2.2 with
  | some err =>
    { p with sys := r.1, s := r.2.1, log := p.log ++ [err],
             halt := some (.exit r.2.1.exitCode) }
  | none => { p with sys := r.1, s := r.2.1 }

/-- A `cli.Command` with the fields that decide what runs. -/
structure Command where
  Name : Bytes
  Before : Context → Option GoError
  Action : Context → Proc → Proc

/-- The method `cli.Command.Run` once the command line is parsed: `Before` runs first,
and when it returns an error the error is returned and `Action` is not run. -/
def Command.Run (cmd : Command) (c : Context) (p : Proc) : Proc × Option GoError :=
  match cmd.Before c with
  | some err => (p, some err)
  | none => (cmd.Action c p, none)

/-- The list `app.Commands` of `main`. -/
def commands : List Command :=
  [ { Name := ascii "lookup", Before := lookupBefore, Action := lookupAction },
    { Name := ascii "store", Before := storeBefore, Action := storeAction },
    { Name := ascii "search", Before := searchBefore, Action := searchAction },
    { Name := ascii "clear", Before := clearBefore, Action := clearAction } ]

/-! ## Words of the specification -/

/-- The fixed 11 bytes in front of the password in the output of the tool. -/
def passwordLead : Bytes := ascii "password: " ++ [dq]

/-- The fixed 2 bytes behind the password: the closing quote and a newline. -/
def passwordTail : Bytes := [dq, nl]

/-- The output has the expected form: the lead, a value, the closing quote, a newline. -/
def HasPasswordForm (out : Bytes) : Prop :=
  ∃ v : Bytes, out = passwordLead ++ v ++ passwordTail

/-- The first line of `b`: its bytes before the first newline, all of `b` when it has
no newline. -/
def firstLine (b : Bytes) : Bytes := b.takeWhile (fun c => c != nl)

/-- The command with path `c.Path` and arguments `c.Args` runs as `x` on machine `y`. -/
def Sys.gives (y : Sys) (c : Cmd) (x : Execution) : Prop := y.os c.Path c.Args = x


/-! ## Inputs used in the examples -/

/-- A machine on which every command behaves as `x`. -/
def constSys (x : Execution) : Sys := { os := fun _ _ => x, spawned := [] }

/-- The zero value of the struct, as `main` allocates it. -/
def newSecurity : security := { keychain := [], exitCode := 0 }

/-- The output in the example of the specification: the quoted value `hello`, a newline and
one more newline. -/
def helloTwoNewlines : Bytes := passwordLead ++ ascii "hello" ++ [dq, nl, nl]

/-- An output of the tool without the lead and without the closing quote. -/
def malformedOutput : Bytes := ascii "no password here"

/-- An execution that writes `boom`, a newline and `more` to standard error and exits
with status 1. -/
def failingExecution : Execution :=
  ⟨ascii "boom" ++ [nl] ++ ascii "more", .exited 256⟩

/-- A program that has not done anything yet, with standard input `stdin`, on a machine
on which every command behaves as `x`. -/
def freshProc (x : Execution) (stdin : Stdin) : Proc :=
  { sys := constSys x, s := newSecurity, stdin := stdin, stdout := [], log := [],
    halt := none }

/-- The command line of `store` used in the example of C8. -/
def storeContext : Context :=
  { Args := [ascii "svc", ascii "me"], label := some (ascii "lbl"), all := false,
    unlock := false }

/-! ## Lemmas on the library model -/

theorem slice_of_bounds (b : Bytes) (lo hi : Nat) (h1 : lo ≤ hi) (h2 : hi ≤ b.length) :
    slice b (lo : Int) (hi : Int) = .ret ((b.drop lo).take (hi - lo)) := by
  unfold slice
  rw [if_pos ⟨by omega, by omega, by omega⟩]
  simp

theorem slice_panic_of_lt (b : Bytes) (lo hi : Int) (h : hi < lo) :
    slice b lo hi = .panic := by
  unfold slice
  rw [if_neg (by omega)]

theorem findGenericPassword_of_success (y : Sys) (s : security) (account service : Bytes)
    (all unlock : Bool) (out : Bytes) (ws : Nat)
    (hrun : y.gives (findCmd account service) ⟨out, .exited ws⟩) (hws : ExitStatus ws = 0) :
    (findGenericPassword y s account service all unlock).2.2 =
      match slice out 11 ((out.length : Int) - 2) with
      | .ret pass => .ret (pass, none)
      | .panic => .panic := by
  unfold Sys.gives at hrun
  simp only [findGenericPassword, Sys.run, Cmd.Run, hrun, hws]
  simp only [findCmd, if_true]
  cases slice out 11 ((out.length : Int) - 2) <;> rfl

theorem slice_long (out : Bytes) (h : 13 ≤ out.length) :
    slice out 11 ((out.length : Int) - 2) = .ret ((out.drop 11).take (out.length - 13)) := by
  have h2 : ((out.length : Int) - 2) = ((out.length - 2 : Nat) : Int) := by omega
  rw [h2]
  have := slice_of_bounds out 11 (out.length - 2) (by omega) (by omega)
  simp only [Nat.cast_ofNat] at this
  rw [this]
  congr 2

theorem slice_short (out : Bytes) (h : out.length < 13) :
    slice out 11 ((out.length : Int) - 2) = .panic :=
  slice_panic_of_lt out 11 _ (by omega)

/-! ## The claims on `findGenericPassword` -/

/-- C1: when the tool succeeds and the captured output is the 11 bytes of the lead, then
`v`, then the closing quote and a newline, `findGenericPassword` returns `v` and no
error. -/
theorem findGenericPassword_recovers_password (y : Sys) (s : security)
    (account service : Bytes) (all unlock : Bool) (v : Bytes) (ws : Nat)
    (hrun : y.gives (findCmd account service)
      ⟨passwordLead ++ v ++ passwordTail, .exited ws⟩)
    (hws : ExitStatus ws = 0) :
    (findGenericPassword y s account service all unlock).2.2 = .ret (v, none) := by
  rw [findGenericPassword_of_success y s account service all unlock _ ws hrun hws]
  have hl : passwordLead.length = 11 := by decide
  have ht : passwordTail.length = 2 := by decide
  rw [slice_long _ (by simp only [List.length_append, hl, ht]; omega)]
  have h1 : (passwordLead ++ v ++ passwordTail).drop 11 = v ++ passwordTail := by
    rw [List.append_assoc, List.drop_append_eq_append_drop, hl]
    simp [List.drop_of_length_le, hl]
  rw [h1]
  have h2 : (passwordLead ++ v ++ passwordTail).length - 13 = v.length := by
    simp only [List.length_append, hl, ht]; omega
  rw [h2]
  simp

/-- C1, at a concrete input: the password `s3cr3t`. -/
theorem findGenericPassword_recovers_password_witness :
    (findGenericPassword
      (constSys ⟨passwordLead ++ ascii "s3cr3t" ++ passwordTail, .exited 0⟩)
      newSecurity (ascii "me") (ascii "svc") false true).2.2
      = .ret (ascii "s3cr3t", none) :=
  findGenericPassword_recovers_password _ _ _ _ _ _ _ 0 rfl (by decide)

/-- C2 fails as stated: on the output with two trailing newlines the result is not the
5 bytes `hello`. -/
theorem hello_two_newlines_keeps_quote :
    (findGenericPassword (constSys ⟨helloTwoNewlines, .exited 0⟩) newSecurity
      (ascii "me") (ascii "svc") false true).2.2 ≠ .ret (ascii "hello", none) := by
  decide

/-- C2 as amended: on the output `password: "hello"` followed by two newlines the result
is the 6 bytes `hello"`, the closing quote included, and no error; followed by one
newline the result is the 5 bytes `hello`. -/
theorem findGenericPassword_hello (y : Sys) (s : security) (account service : Bytes)
    (all unlock : Bool) (ws : Nat) (hws : ExitStatus ws = 0) :
    (y.gives (findCmd account service) ⟨helloTwoNewlines, .exited ws⟩ →
      (findGenericPassword y s account service all unlock).2.2
        = .ret (ascii "hello" ++ [dq], none)) ∧
    (y.gives (findCmd account service)
        ⟨passwordLead ++ ascii "hello" ++ [dq, nl], .exited ws⟩ →
      (findGenericPassword y s account service all unlock).2.2
        = .ret (ascii "hello", none)) := by
  constructor
  · intro hrun
    rw [findGenericPassword_of_success y s account service all unlock _ ws hrun hws]
    rfl
  · intro hrun
    rw [findGenericPassword_of_success y s account service all unlock _ ws hrun hws]
    rfl

/-- C2 as amended, at a concrete machine. -/
theorem findGenericPassword_hello_witness :
    (findGenericPassword (constSys ⟨helloTwoNewlines, .exited 0⟩) newSecurity
      (ascii "me") (ascii "svc") false true).2.2 = .ret (ascii "hello" ++ [dq], none) :=
  (findGenericPassword_hello (constSys ⟨helloTwoNewlines, .exited 0⟩) newSecurity
    (ascii "me") (ascii "svc") false true 0 (by decide)).1 rfl

theorem malformedOutput_not_form : ¬ HasPasswordForm malformedOutput := by
  rintro ⟨v, hv⟩
  have h := congrArg (List.take 11) hv
  rw [List.append_assoc, List.take_append_of_le_length (by decide)] at h
  revert h
  decide

/-- C3 fails as stated: on a successful run whose output lacks the expected form the
result is no error but the bytes 11 to 13 of the output, returned as the password. -/
theorem malformed_output_returned_as_password :
    ¬ HasPasswordForm malformedOutput ∧
    (findGenericPassword (constSys ⟨malformedOutput, .exited 0⟩) newSecurity
      (ascii "me") (ascii "svc") false true).2.2 = .ret (ascii " he", none) :=
  ⟨malformedOutput_not_form, by decide⟩

/-- C3 as amended: for every successful output that lacks the expected form,
`findGenericPassword` returns no error: when the output has at least 13 bytes it returns
the bytes of the output from offset 11 up to the last two, and when it is shorter the
slice expression panics. -/
theorem findGenericPassword_malformed (y : Sys) (s : security) (account service : Bytes)
    (all unlock : Bool) (out : Bytes) (ws : Nat)
    (hrun : y.gives (findCmd account service) ⟨out, .exited ws⟩)
    (hws : ExitStatus ws = 0) (_hform : ¬ HasPasswordForm out) :
    (13 ≤ out.length →
      (findGenericPassword y s account service all unlock).2.2
        = .ret ((out.drop 11).take (out.length - 13), none)) ∧
    (out.length < 13 →
      (findGenericPassword y s account service all unlock).2.2 = .panic) := by
  rw [findGenericPassword_of_success y s account service all unlock _ ws hrun hws]
  constructor
  · intro hlen
    rw [slice_long out hlen]
  · intro hlen
    rw [slice_short out hlen]

/-- C3 as amended, at the malformed output `no password here`. -/
theorem findGenericPassword_malformed_witness :
    (findGenericPassword (constSys ⟨malformedOutput, .exited 0⟩) newSecurity
      (ascii "me") (ascii "svc") false true).2.2
      = .ret ((malformedOutput.drop 11).take (malformedOutput.length - 13), none) :=
  (findGenericPassword_malformed (constSys ⟨malformedOutput, .exited 0⟩) newSecurity
    (ascii "me") (ascii "svc") false true malformedOutput 0 rfl (by decide)
    malformedOutput_not_form).1 (by decide)

/-- C10: on a successful run the slice expression `out[11 : len(out)-2]` is in range
exactly when the output has at least 13 bytes; a shorter output, the empty one included,
makes the operation panic, and an output of at least 13 bytes makes it return a string
of `len(out) - 13` bytes and no error. -/
theorem findGenericPassword_slice_in_range (y : Sys) (s : security)
    (account service : Bytes) (all unlock : Bool) (out : Bytes) (ws : Nat)
    (hrun : y.gives (findCmd account service) ⟨out, .exited ws⟩)
    (hws : ExitStatus ws = 0) :
    (slice out 11 ((out.length : Int) - 2) ≠ .panic ↔ 13 ≤ out.length) ∧
    (out.length < 13 →
      (findGenericPassword y s account service all unlock).2.2 = .panic) ∧
    (13 ≤ out.length →
      ∃ pass : Bytes,
        (findGenericPassword y s account service all unlock).2.2 = .ret (pass, none) ∧
        pass.length = out.length - 13) := by
  rw [findGenericPassword_of_success y s account service all unlock _ ws hrun hws]
  refine ⟨?_, ?_, ?_⟩
  · constructor
    · intro h
      by_contra hlt
      exact h (slice_short out (by omega))
    · intro hlen
      rw [slice_long out hlen]
      exact fun h => Outcome.noConfusion h
  · intro hlen
    rw [slice_short out hlen]
  · intro hlen
    refine ⟨(out.drop 11).take (out.length - 13), ?_, ?_⟩
    · rw [slice_long out hlen]
    · rw [List.length_take, List.length_drop]
      omega

/-- C10, at the empty output and at an output of 13 bytes. -/
theorem findGenericPassword_slice_in_range_witness :
    (findGenericPassword (constSys ⟨[], .exited 0⟩) newSecurity
      (ascii "me") (ascii "svc") false true).2.2 = .panic ∧
    ∃ pass : Bytes,
      (findGenericPassword (constSys ⟨passwordLead ++ passwordTail, .exited 0⟩)
        newSecurity (ascii "me") (ascii "svc") false true).2.2 = .ret (pass, none) ∧
      pass.length = (passwordLead ++ passwordTail).length - 13 :=
  ⟨(findGenericPassword_slice_in_range (constSys ⟨[], .exited 0⟩) newSecurity
      (ascii "me") (ascii "svc") false true [] 0 rfl (by decide)).2.1 (by decide),
   (findGenericPassword_slice_in_range
      (constSys ⟨passwordLead ++ passwordTail, .exited 0⟩) newSecurity
      (ascii "me") (ascii "svc") false true _ 0 rfl (by decide)).2.2 (by decide)⟩

/-! ## Errors and exit codes -/

theorem bytesSplit_head (d : UInt8) (b : Bytes) :
    ∃ rest : List Bytes, bytesSplit d b = b.takeWhile (fun c => c != d) :: rest := by
  induction b with
  | nil => exact ⟨[], rfl⟩
  | cons c cs ih =>
    obtain ⟨rest, hrest⟩ := ih
    by_cases h : c = d
    · exact ⟨bytesSplit d cs, by simp [bytesSplit, h]⟩
    · exact ⟨rest, by simp [bytesSplit, h, hrest]⟩

theorem firstLineError_eq (b : Bytes) :
    firstLineError b = some (.errorString (firstLine b)) := by
  obtain ⟨rest, hrest⟩ := bytesSplit_head nl b
  simp [firstLineError, firstLine, hrest]

/-- C4, what the code does: when the subprocess exits non-zero having written `E` to
its standard error, `findGenericPassword` returns the error whose message is the first
line of `E`, but `addGenericPassword` and `deleteGenericPassword` return the error with
the empty message, whatever `E` is: they read the field `Stderr` of the exit error,
which `Run` leaves empty. -/
theorem adapter_error_message (y : Sys) (s : security)
    (account service label password : Bytes) (all unlock : Bool) (E : Bytes) (ws : Nat)
    (hws : ExitStatus ws ≠ 0) :
    (y.gives (findCmd account service) ⟨E, .exited ws⟩ →
      (findGenericPassword y s account service all unlock).2.2
        = .ret ([], some (.errorString (firstLine E)))) ∧
    (y.gives (addCmd account service label password) ⟨E, .exited ws⟩ →
      (addGenericPassword y s account service label password).2.2
        = some (.errorString [])) ∧
    (y.gives (deleteCmd account service) ⟨E, .exited ws⟩ →
      (deleteGenericPassword y s account service).2.2 = some (.errorString [])) := by
  refine ⟨?_, ?_, ?_⟩
  · intro hrun
    unfold Sys.gives at hrun
    simp only [findGenericPassword, Sys.run, Cmd.Run, hrun, hws, if_false]
    simp only [findCmd, if_true, firstLineError_eq]
  · intro hrun
    unfold Sys.gives at hrun
    simp only [addGenericPassword, Sys.run, Cmd.Run, hrun, hws, if_false, execError]
    rfl
  · intro hrun
    unfold Sys.gives at hrun
    simp only [deleteGenericPassword, Sys.run, Cmd.Run, hrun, hws, if_false, execError]
    rfl

/-- C4, at the failing input: the tool writes `boom`, newline, `more` and exits with
status 1; the first line is `boom`, the error of `addGenericPassword` has the empty
message. -/
theorem adapter_error_message_witness :
    firstLine failingExecution.stderr = ascii "boom" ∧
    (addGenericPassword (constSys failingExecution) newSecurity
      (ascii "me") (ascii "svc") (ascii "lbl") (ascii "pw")).2.2
      = some (.errorString []) :=
  ⟨by decide,
   (adapter_error_message (constSys failingExecution) newSecurity
      (ascii "me") (ascii "svc") (ascii "lbl") (ascii "pw") false true
      (ascii "boom" ++ [nl] ++ ascii "more") 256 (by decide)).2.1 rfl⟩

theorem run_of_success (y : Sys) (c : Cmd) (stderr : Bytes) (ws : Nat)
    (hrun : y.gives c ⟨stderr, .exited ws⟩) (hws : ExitStatus ws = 0) :
    (y.run c).2.1 = none := by
  unfold Sys.gives at hrun
  simp [Sys.run, Cmd.Run, hrun, hws]

/-- C5: after each adapter operation the field `exitCode` of the struct equals
`exitCode(err)` for the error `err` that `Run` returned; `exitCode` is 0 for `nil`, the
exit status of the wait status for an exit error that carries one, and 1 for every
other error; it is 0 whenever the subprocess succeeded. -/
theorem exitCode_recorded (y : Sys) (s : security)
    (account service label password : Bytes) (all unlock : Bool) :
    (findGenericPassword y s account service all unlock).2.1.exitCode
      = exitCode (y.run (findCmd account service)).2.1 ∧
    (addGenericPassword y s account service label password).2.1.exitCode
      = exitCode (y.run (addCmd account service label password)).2.1 ∧
    (deleteGenericPassword y s account service).2.1.exitCode
      = exitCode (y.run (deleteCmd account service)).2.1 ∧
    exitCode none = 0 ∧
    (∀ (status : Nat) (Stderr : Bytes),
      exitCode (some (.exitError (some status) Stderr)) = ExitStatus status) ∧
    (∀ Stderr : Bytes, exitCode (some (.exitError none Stderr)) = 1) ∧
    (∀ msg : Bytes, exitCode (some (.errorString msg)) = 1) ∧
    (∀ msg : Bytes, exitCode (some (.other msg)) = 1) ∧
    (∀ (c : Cmd) (stderr : Bytes) (ws : Nat),
      y.gives c ⟨stderr, .exited ws⟩ → ExitStatus ws = 0 → exitCode (y.run c).2.1 = 0) := by
  refine ⟨?_, rfl, rfl, rfl, fun _ _ => rfl, fun _ => rfl, fun _ => rfl, fun _ => rfl, ?_⟩
  · simp only [findGenericPassword]
    cases (y.run (findCmd account service)).2.1 with
    | some e => rfl
    | none =>
      simp only
      cases slice (y.run (findCmd account service)).2.2 11
        (((y.run (findCmd account service)).2.2.length : Int) - 2) <;> rfl
  · intro c stderr ws hrun hws
    rw [run_of_success y c stderr ws hrun hws]
    rfl

/-- C5, at concrete runs: a lookup whose subprocess exits with status 44 records 44, and
a store whose subprocess succeeds records 0. -/
theorem exitCode_recorded_witness :
    (findGenericPassword (constSys ⟨[], .exited (44 * 256)⟩) newSecurity
      (ascii "me") (ascii "svc") false true).2.1.exitCode = 44 ∧
    exitCode ((constSys ⟨[], .exited 0⟩).run
      (addCmd (ascii "me") (ascii "svc") (ascii "lbl") (ascii "pw"))).2.1 = 0 :=
  ⟨((exitCode_recorded (constSys ⟨[], .exited (44 * 256)⟩) newSecurity
      (ascii "me") (ascii "svc") (ascii "lbl") (ascii "pw") false true).1).trans
      (by decide),
   (exitCode_recorded (constSys ⟨[], .exited 0⟩) newSecurity
      (ascii "me") (ascii "svc") (ascii "lbl") (ascii "pw") false true).2.2.2.2.2.2.2.2
      _ [] 0 rfl (by decide)⟩

/-! ## Argument validation -/

/-- C6: for each of the four commands and every command line with fewer than 2
positional arguments, `Before` fails with "Missing arguments", `Action` is not run and
no command is spawned: the program state is unchanged. -/
theorem before_rejects_missing_arguments (cmd : Command) (hcmd : cmd ∈ commands)
    (c : Context) (p : Proc) (hargs : c.Args.length < 2) :
    commands.map Command.Name
      = [ascii "lookup", ascii "store", ascii "search", ascii "clear"] ∧
    cmd.Before c = some (.errorString (ascii "Missing arguments")) ∧
    cmd.Run c p = (p, some (.errorString (ascii "Missing arguments"))) ∧
    (cmd.Run c p).1.sys.spawned = p.sys.spawned := by
  have hb : cmd.Before c = some (.errorString (ascii "Missing arguments")) := by
    simp only [commands, List.mem_cons, List.mem_singleton, List.not_mem_nil,
      or_false] at hcmd
    rcases hcmd with h | h | h | h <;> subst h
    · simp [lookupBefore, hargs, missingArguments]
    · simp [storeBefore, hargs, missingArguments]
    · simp [searchBefore, hargs, missingArguments]
    · simp [clearBefore, hargs, missingArguments]
  have hr : cmd.Run c p = (p, some (.errorString (ascii "Missing arguments"))) := by
    simp only [Command.Run, hb]
  exact ⟨rfl, hb, hr, by rw [hr]⟩

/-- C6, at the command `store` with the single positional argument `svc`. -/
theorem before_rejects_missing_arguments_witness :
    (Command.Run { Name := ascii "store", Before := storeBefore, Action := storeAction }
      { Args := [ascii "svc"], label := some (ascii "lbl"), all := false, unlock := false }
      (freshProc ⟨[], .exited 0⟩ (.pipe (ascii "pw" ++ [nl])))).1.sys.spawned = [] :=
  (before_rejects_missing_arguments
    { Name := ascii "store", Before := storeBefore, Action := storeAction }
    (by simp [commands])
    { Args := [ascii "svc"], label := some (ascii "lbl"), all := false, unlock := false }
    (freshProc ⟨[], .exited 0⟩ (.pipe (ascii "pw" ++ [nl]))) (by decide)).2.2.2

/-! ## Reading the password -/

theorem ReadString_of_mem (d : UInt8) (content : Bytes) (h : d ∈ content) :
    ReadString d content = (content.takeWhile (fun c => c != d) ++ [d], none) := by
  induction content with
  | nil => simp at h
  | cons c cs ih =>
    by_cases hc : c = d
    · simp [ReadString, hc]
    · have hmem : d ∈ cs := by
        rcases List.mem_cons.mp h with h1 | h1
        · exact absurd h1.symm hc
        · exact h1
      simp [ReadString, hc, ih hmem]

theorem ReadString_of_not_mem (d : UInt8) (content : Bytes) (h : d ∉ content) :
    ReadString d content = (content, some ioEOF) := by
  induction content with
  | nil => rfl
  | cons c cs ih =>
    have hc : ¬ c = d := fun e => h (by simp [e])
    have hcs : d ∉ cs := fun e => h (List.mem_cons_of_mem _ e)
    simp [ReadString, hc, ih hcs]

theorem slice_drop_last (l : Bytes) (d : UInt8) :
    slice (l ++ [d]) 0 (((l ++ [d]).length : Int) - 1) = .ret l := by
  have h2 : (((l ++ [d]).length : Int) - 1) = ((l.length : Nat) : Int) := by
    simp
  rw [h2]
  have := slice_of_bounds (l ++ [d]) 0 l.length (by omega) (by simp)
  simp only [Nat.cast_zero] at this
  rw [this]
  simp

theorem passwordFromStdin_of_mem (content prompt : Bytes) (h : nl ∈ content) :
    passwordFromStdin (.pipe content) prompt = ([], .ret (firstLine content, none)) := by
  simp only [passwordFromStdin, ReadString_of_mem nl content h, slice_drop_last, firstLine]

theorem passwordFromStdin_of_not_mem (content prompt : Bytes) (h : nl ∉ content) :
    passwordFromStdin (.pipe content) prompt = ([], .ret ([], some ioEOF)) := by
  simp only [passwordFromStdin, ReadString_of_not_mem nl content h]

/-- C7: when standard input is not a terminal, `passwordFromStdin` succeeds if and only
if the input contains a newline; it then returns the bytes before the first newline,
so `secret` for the input `secret` and a newline; when the input ends without a newline
it returns an error and the empty string. -/
theorem passwordFromStdin_pipe (content prompt : Bytes) :
    ((∃ p : Bytes, (passwordFromStdin (.pipe content) prompt).2 = .ret (p, none))
      ↔ nl ∈ content) ∧
    (nl ∈ content →
      (passwordFromStdin (.pipe content) prompt).2 = .ret (firstLine content, none)) ∧
    (nl ∉ content →
      (passwordFromStdin (.pipe content) prompt).2 = .ret ([], some ioEOF)) ∧
    (passwordFromStdin (.pipe (ascii "secret" ++ [nl])) prompt).2
      = .ret (ascii "secret", none) := by
  refine ⟨⟨?_, ?_⟩, ?_, ?_, ?_⟩
  · rintro ⟨p, hp⟩
    by_contra hmem
    rw [passwordFromStdin_of_not_mem content prompt hmem] at hp
    simp at hp
  · intro hmem
    exact ⟨firstLine content, by rw [passwordFromStdin_of_mem content prompt hmem]⟩
  · intro hmem
    rw [passwordFromStdin_of_mem content prompt hmem]
  · intro hmem
    rw [passwordFromStdin_of_not_mem content prompt hmem]
  · rw [passwordFromStdin_of_mem _ prompt (by decide)]
    decide

/-- C7, at the input of two lines `secret` and `rest`, and at the input `secret`
without a newline. -/
theorem passwordFromStdin_pipe_witness :
    (passwordFromStdin (.pipe (ascii "secret" ++ [nl] ++ ascii "rest" ++ [nl]))
      (ascii "Password: ")).2
      = .ret (firstLine (ascii "secret" ++ [nl] ++ ascii "rest" ++ [nl]), none) ∧
    (passwordFromStdin (.pipe (ascii "secret")) (ascii "Password: ")).2
      = .ret ([], some ioEOF) :=
  ⟨(passwordFromStdin_pipe (ascii "secret" ++ [nl] ++ ascii "rest" ++ [nl])
      (ascii "Password: ")).2.1 (by decide),
   (passwordFromStdin_pipe (ascii "secret") (ascii "Password: ")).2.2.1 (by decide)⟩

/-! ## The actions -/

theorem findGenericPassword_sys (y : Sys) (s : security) (account service : Bytes)
    (all unlock : Bool) :
    (findGenericPassword y s account service all unlock).1
      = { y with spawned := y.spawned ++ [findCmd account service] } := by
  simp only [findGenericPassword]
  cases (y.run (findCmd account service)).2.1 with
  | some e => rfl
  | none =>
    simp only
    cases slice (y.run (findCmd account service)).2.2 11
      (((y.run (findCmd account service)).2.2.length : Int) - 2) <;> rfl

theorem passwordFromStdin_error_empty (stdin : Stdin) (prompt read : Bytes) (err : GoError)
    (h : (passwordFromStdin stdin prompt).2 = .ret (read, some err)) : read = [] := by
  cases stdin with
  | terminal r =>
    obtain ⟨b, e⟩ := r
    cases e with
    | none => simp [passwordFromStdin] at h
    | some e0 =>
      simp only [passwordFromStdin, Outcome.ret.injEq, Prod.mk.injEq] at h
      exact h.1.symm
  | pipe content =>
    by_cases hmem : nl ∈ content
    · rw [passwordFromStdin_of_mem content prompt hmem] at h
      simp at h
    · rw [passwordFromStdin_of_not_mem content prompt hmem] at h
      simp only [Outcome.ret.injEq, Prod.mk.injEq] at h
      exact h.1.symm

theorem addGenericPassword_sys (y : Sys) (s : security)
    (account service label password : Bytes) :
    (addGenericPassword y s account service label password).1
      = { y with spawned := y.spawned ++ [addCmd account service label password] } :=
  rfl

/-- C8 fails as stated: with the piped input `secret` without a newline the read fails
after the 6 bytes `secret` have been read, and the password handed to
`addGenericPassword` is the empty string, not `secret`. -/
theorem storeAction_drops_bytes_read_before_failure :
    ReadString nl (ascii "secret") = (ascii "secret", some ioEOF) ∧
    (storeAction storeContext
      (freshProc ⟨[], .exited 0⟩ (.pipe (ascii "secret")))).sys.spawned
      = [addCmd (ascii "me") (ascii "svc") (ascii "lbl") []] ∧
    (storeAction storeContext
      (freshProc ⟨[], .exited 0⟩ (.pipe (ascii "secret")))).sys.spawned
      ≠ [addCmd (ascii "me") (ascii "svc") (ascii "lbl") (ascii "secret")] := by
  decide

/-- C8 as amended: in the store action, if reading the password fails, the error is
logged and execution continues: `addGenericPassword` is invoked exactly once with the
given account, service and label, and the password passed to it is the empty string,
whatever was read before the failure. -/
theorem storeAction_continues_after_read_error (service account label : Bytes)
    (rest : List Bytes) (all unlock : Bool) (p : Proc) (read : Bytes) (err : GoError)
    (h : (passwordFromStdin p.stdin (ascii "Password: ")).2 = .ret (read, some err)) :
    (storeAction ⟨service :: account :: rest, some label, all, unlock⟩ p).sys.spawned
      = p.sys.spawned ++ [addCmd account service label []] ∧
    err ∈ (storeAction ⟨service :: account :: rest, some label, all, unlock⟩ p).log := by
  have hread : read = [] := passwordFromStdin_error_empty _ _ _ _ h
  subst hread
  simp only [storeAction, h]
  have hsys := addGenericPassword_sys p.sys p.s
    (Context.Get ⟨service :: account :: rest, some label, all, unlock⟩ 1)
    (Context.Get ⟨service :: account :: rest, some label, all, unlock⟩ 0)
    (Context.StringLabel ⟨service :: account :: rest, some label, all, unlock⟩) []
  cases hadd : (addGenericPassword p.sys p.s
    (Context.Get ⟨service :: account :: rest, some label, all, unlock⟩ 1)
    (Context.Get ⟨service :: account :: rest, some label, all, unlock⟩ 0)
    (Context.StringLabel ⟨service :: account :: rest, some label, all, unlock⟩) []).2.2 with
  | none =>
    simp only [hsys]
    exact ⟨by simp [Context.Get, Context.StringLabel], by simp⟩
  | some e =>
    simp only [hsys]
    exact ⟨by simp [Context.Get, Context.StringLabel], by simp⟩

/-- C8 as amended, at the piped input `secret` without a newline. -/
theorem storeAction_continues_after_read_error_witness :
    (storeAction ⟨[ascii "svc", ascii "me"], some (ascii "lbl"), false, false⟩
      (freshProc ⟨[], .exited 0⟩ (.pipe (ascii "secret")))).sys.spawned
      = [] ++ [addCmd (ascii "me") (ascii "svc") (ascii "lbl") []] :=
  (storeAction_continues_after_read_error (ascii "svc") (ascii "me") (ascii "lbl") []
    false false (freshProc ⟨[], .exited 0⟩ (.pipe (ascii "secret"))) [] ioEOF
    (by decide)).1

theorem searchAction_sys (c : Context) (p : Proc) :
    (searchAction c p).sys
      = (findGenericPassword p.sys p.s (c.Get 1) (c.Get 0) c.all c.unlock).1 := by
  simp only [searchAction]
  split <;> rfl

theorem lookupAction_sys (c : Context) (p : Proc) :
    (lookupAction c p).sys
      = (findGenericPassword p.sys p.s (c.Get 1) (c.Get 0) false true).1 := by
  simp only [lookupAction]
  split <;> rfl

/-- C9: for every service and account and every value of the flags `all` and `unlock`,
lookup and search with the positional arguments service and account run the tool once,
with the arguments `find-generic-password -a account -s service -g`; the whole run of
search is the same for all values of the two flags and is the run of lookup, which
passes `all=false, unlock=true`. -/
theorem search_ignores_flags (service account : Bytes) (rest : List Bytes)
    (label : Option Bytes) (all unlock all2 unlock2 : Bool) (p : Proc) :
    (findCmd account service).Path = ascii "/usr/bin/security" ∧
    (findCmd account service).Args
      = [ascii "find-generic-password", ascii "-a", account, ascii "-s", service,
         ascii "-g"] ∧
    (searchAction ⟨service :: account :: rest, label, all, unlock⟩ p).sys.spawned
      = p.sys.spawned ++ [findCmd account service] ∧
    (lookupAction ⟨service :: account :: rest, label, all, unlock⟩ p).sys.spawned
      = p.sys.spawned ++ [findCmd account service] ∧
    searchAction ⟨service :: account :: rest, label, all, unlock⟩ p
      = searchAction ⟨service :: account :: rest, label, all2, unlock2⟩ p ∧
    searchAction ⟨service :: account :: rest, label, all, unlock⟩ p
      = lookupAction ⟨service :: account :: rest, label, false, true⟩ p ∧
    findGenericPassword p.sys p.s account service all unlock
      = findGenericPassword p.sys p.s account service false true := by
  refine ⟨rfl, rfl, ?_, ?_, rfl, rfl, rfl⟩
  · rw [searchAction_sys, findGenericPassword_sys]
    simp [Context.Get]
  · rw [lookupAction_sys, findGenericPassword_sys]
    simp [Context.Get]

end SecretTool
